import Mathlib

/-!
Verification of the Thermo-Calc experimental-datafile parser
(`exp_datafile.py`, function `load_exp_datafile`).

The Python function reads a text file line by line, splits each line into
whitespace-separated tokens, and runs three independent sections per line:

* `len(arr) > 0`: `BLOCK` opens a fresh block (`xblock`, `yblock`);
  `BLOCKEND` appends the current `xblock`/`yblock` to the output lists
  `x`/`y` (raising `NameError` when they were never defined).
* `len(arr) > 1`: `XTEXT`/`YTEXT` set the labels, `CLIP ON`/`CLIP OFF`
  toggle the clip flag, and then — with no `else` — when a block is open
  and clip is on, the line is treated as data: second token `PLOTTED`
  appends a `(None, None)` sentinel, otherwise `float(arr[0])` is appended
  to `xblock` and then `float(arr[1])` to `yblock` inside a `try/except`
  that swallows the failure (so a failure on the second token leaves a
  partial append of the first).
* `len(arr) > 2`: `XSCALE`/`YSCALE` append two parsed floats to
  `xlim`/`ylim`, with no exception handling (`ValueError` propagates).

Numbers are modelled as rationals; `float(s)` is modelled by `pyFloat?`,
a parser for Python's decimal float literals (optional sign, digits,
optional fractional part, optional exponent); special forms such as
`inf`, `nan` and digit underscores are not modelled, and IEEE rounding is
ignored, which is exact on the decimal literals considered here.
Python exceptions are modelled with `Except`.
-/

/-- Whitespace test used by Python's `str.split()` (no argument form). -/
def pyWS (c : Char) : Bool :=
  c = ' ' ∨ c = '\t' ∨ c = '\n' ∨ c = '\r'

/-- Accumulating tokenizer: splits on runs of whitespace, dropping empty
pieces, like Python's `line.split()`. -/
def tokensAux (acc : List Char) (cs : List Char) : List String :=
  match cs with
  | [] => if acc.isEmpty then [] else [⟨acc.reverse⟩]
  | c :: rest =>
    if pyWS c then
      if acc.isEmpty then tokensAux [] rest
      else ⟨acc.reverse⟩ :: tokensAux [] rest
    else tokensAux (c :: acc) rest

/-- `tokens line` models `line.strip(' \t\n').split()` from the source
(the strip is absorbed by `split()`, which already ignores leading and
trailing whitespace). -/
def tokens (line : String) : List String :=
  tokensAux [] line.toList

/-- Numeric value of a digit string read left to right. -/
def digitsVal (l : List Char) : ℕ :=
  l.foldl (fun a c => 10 * a + (c.toNat - 48)) 0

/-- Exponent suffix of a float literal: optional sign then digits.
Returns the sign (`true` for negative) and the magnitude. -/
def expVal? (cs : List Char) : Option (Bool × ℕ) :=
  let p : Bool × List Char :=
    match cs with
    | '+' :: r => (false, r)
    | '-' :: r => (true, r)
    | r => (false, r)
  let ed := p.2.takeWhile Char.isDigit
  let rest := p.2.dropWhile Char.isDigit
  if ed.isEmpty ∨ ¬rest.isEmpty then none
  else some (p.1, digitsVal ed)

/-- Exact rational value of a decoded float literal: sign, integer
mantissa, decimal scale (number of fractional digits) and optional
exponent, i.e. `±(mant / 10 ^ scale) · 10 ^ (±ev)`. -/
def mkVal (neg : Bool) (mant : ℕ) (scale : ℕ) (e : Option (Bool × ℕ)) : ℚ :=
  let n : ℤ := if neg then -(mant : ℤ) else (mant : ℤ)
  match e with
  | none => mkRat n (10 ^ scale)
  | some (true, ev) => mkRat n (10 ^ scale * 10 ^ ev)
  | some (false, ev) => mkRat (n * 10 ^ ev) (10 ^ scale)

/-- Core of `pyFloat?` on the character list of the token. -/
def pyFloatAux (cs : List Char) : Option ℚ :=
  let p : Bool × List Char :=
    match cs with
    | '+' :: r => (false, r)
    | '-' :: r => (true, r)
    | r => (false, r)
  let ip := p.2.takeWhile Char.isDigit
  let cs2 := p.2.dropWhile Char.isDigit
  match cs2 with
  | [] => if ip.isEmpty then none else some (mkVal p.1 (digitsVal ip) 0 none)
  | '.' :: cs3 =>
    let fp := cs3.takeWhile Char.isDigit
    let cs4 := cs3.dropWhile Char.isDigit
    if ip.isEmpty ∧ fp.isEmpty then none
    else
      let mant := digitsVal ip * 10 ^ fp.length + digitsVal fp
      match cs4 with
      | [] => some (mkVal p.1 mant fp.length none)
      | 'e' :: cs5 => (expVal? cs5).map fun e => mkVal p.1 mant fp.length (some e)
      | 'E' :: cs5 => (expVal? cs5).map fun e => mkVal p.1 mant fp.length (some e)
      | _ => none
  | 'e' :: cs5 =>
    if ip.isEmpty then none
    else (expVal? cs5).map fun e => mkVal p.1 (digitsVal ip) 0 (some e)
  | 'E' :: cs5 =>
    if ip.isEmpty then none
    else (expVal? cs5).map fun e => mkVal p.1 (digitsVal ip) 0 (some e)
  | _ => none

/-- Model of Python's `float(s)` on a whitespace-free token: `some q` when
the token is a decimal float literal with value `q`, `none` when `float`
raises `ValueError`. -/
def pyFloat? (s : String) : Option ℚ :=
  pyFloatAux s.toList

/-- The Python exceptions the parser can raise: `NameError` from using
`xblock`/`yblock` before any `BLOCK` line, `ValueError` from the uncaught
`float` calls in the `XSCALE`/`YSCALE` section. -/
inductive PyErr where
  | nameError : PyErr
  | valueError : PyErr
deriving Repr, DecidableEq

/-- The local variables of `load_exp_datafile` while scanning the file.
`xblock`/`yblock` are `none` while the Python variables are undefined
(before the first `BLOCK` line). -/
structure ParseState where
  blockin : Bool
  clip : Bool
  xblock : Option (List (Option ℚ))
  yblock : Option (List (Option ℚ))
  xs : List (List (Option ℚ))
  ys : List (List (Option ℚ))
  xlab : String
  ylab : String
  xlim : List ℚ
  ylim : List ℚ
deriving Repr, DecidableEq

/-- State at the top of `load_exp_datafile`, before any line is read. -/
def initState : ParseState :=
  { blockin := false, clip := true, xblock := none, yblock := none,
    xs := [], ys := [], xlab := "", ylab := "", xlim := [], ylim := [] }

/-- Marker line handling guarded by `len(arr) > 0`: `BLOCK` starts a fresh
open block, `BLOCKEND` seals the current `xblock`/`yblock` into `xs`/`ys`
(a `NameError` when they are still undefined). -/
def sec1 (st : ParseState) (arr : List String) : Except PyErr ParseState :=
  match arr with
  | [] => .ok st
  | a0 :: _ =>
    let st1 := if a0 = "BLOCK" then
        { st with xblock := some [], yblock := some [], blockin := true }
      else st
    if a0 = "BLOCKEND" then
      match st1.xblock, st1.yblock with
      | some xb, some yb =>
        .ok { st1 with xs := st1.xs ++ [xb], ys := st1.ys ++ [yb], blockin := false }
      | _, _ => .error .nameError
    else .ok st1

/-- Metadata updates of the `len(arr) > 1` section. The source uses four
independent `if` statements whose conditions are mutually exclusive
(`arr[0]` is a single string, `arr[1]` cannot be both `"ON"` and
`"OFF"`), so the field-wise form below is extensionally the same. -/
def applyMeta (st : ParseState) (a0 a1 : String) (rest : List String) : ParseState :=
  { st with
    xlab := if a0 = "XTEXT" then " ".intercalate (a1 :: rest) else st.xlab,
    ylab := if a0 = "YTEXT" then " ".intercalate (a1 :: rest) else st.ylab,
    clip :=
      if a0 = "CLIP" ∧ a1 = "ON" then true
      else if a0 = "CLIP" ∧ a1 = "OFF" then false
      else st.clip }

/-- The unguarded data branch at the end of the `len(arr) > 1` section:
when a block is open and clip is on, `PLOTTED` in second position appends
a sentinel, otherwise `float(arr[0])` is appended to `xblock` and then
`float(arr[1])` to `yblock`, each failure caught by the bare `except`
(so a failure on the second token keeps the already-performed first
append). -/
def dataBranch (st : ParseState) (a0 a1 : String) : Except PyErr ParseState :=
  if st.blockin && st.clip then
    match st.xblock, st.yblock with
    | some xb, some yb =>
      if a1 = "PLOTTED" then
        .ok { st with xblock := some (xb ++ [none]), yblock := some (yb ++ [none]) }
      else
        match pyFloat? a0 with
        | none => .ok st
        | some xv =>
          match pyFloat? a1 with
          | none => .ok { st with xblock := some (xb ++ [some xv]) }
          | some yv =>
            .ok { st with xblock := some (xb ++ [some xv]), yblock := some (yb ++ [some yv]) }
    | _, _ => .error .nameError
  else .ok st

/-- The `len(arr) > 1` section: metadata updates, then the data branch. -/
def sec2 (st : ParseState) (arr : List String) : Except PyErr ParseState :=
  match arr with
  | a0 :: a1 :: rest => dataBranch (applyMeta st a0 a1 rest) a0 a1
  | _ => .ok st

/-- The `len(arr) > 2` section: `XSCALE`/`YSCALE` append two parsed floats
to `xlim`/`ylim`; the `float` calls are not protected, so a malformed
token raises `ValueError`. -/
def sec3 (st : ParseState) (arr : List String) : Except PyErr ParseState :=
  match arr with
  | a0 :: a1 :: a2 :: _ =>
    if a0 = "XSCALE" then
      match pyFloat? a1, pyFloat? a2 with
      | some v1, some v2 => .ok { st with xlim := st.xlim ++ [v1, v2] }
      | _, _ => .error .valueError
    else if a0 = "YSCALE" then
      match pyFloat? a1, pyFloat? a2 with
      | some v1, some v2 => .ok { st with ylim := st.ylim ++ [v1, v2] }
      | _, _ => .error .valueError
    else .ok st
  | _ => .ok st

/-- Processing of one line of the file: tokenize, then run the three
sections in source order, propagating exceptions. -/
def step (st : ParseState) (line : String) : Except PyErr ParseState :=
  let arr := tokens line
  match sec1 st arr with
  | .error e => .error e
  | .ok st1 =>
    match sec2 st1 arr with
    | .error e => .error e
    | .ok st2 => sec3 st2 arr

/-- The `for line in f` loop from a given state. -/
def runLines (st : ParseState) (lines : List String) : Except PyErr ParseState :=
  match lines with
  | [] => .ok st
  | l :: ls =>
    match step st l with
    | .error e => .error e
    | .ok st' => runLines st' ls

/-- Whole-file scan from the initial state. -/
def parseLines (lines : List String) : Except PyErr ParseState :=
  runLines initState lines

/-- The flattening loop `for xblock, yblock in zip(x, y): newx += xblock +
[None]; newy += yblock + [None]` run when `blocks=False`. -/
def flattenBlocks (xs ys : List (List (Option ℚ))) :
    List (Option ℚ) × List (Option ℚ) :=
  (xs.zip ys).foldl
    (fun p b => (p.1 ++ b.1 ++ [none], p.2 ++ b.2 ++ [none])) ([], [])

/-- Return value of `load_exp_datafile(fname, blocks=True)`. -/
structure BlocksResult where
  x : List (List (Option ℚ))
  y : List (List (Option ℚ))
  xlab : String
  ylab : String
  xlim : List ℚ
  ylim : List ℚ
deriving Repr, DecidableEq

/-- Return value of `load_exp_datafile(fname)` (flattened, the default). -/
structure FlatResult where
  x : List (Option ℚ)
  y : List (Option ℚ)
  xlab : String
  ylab : String
  xlim : List ℚ
  ylim : List ℚ
deriving Repr, DecidableEq

/-- `load_exp_datafile` with `blocks=True`, on the file's list of lines. -/
def load_exp_datafile_blocks (lines : List String) : Except PyErr BlocksResult :=
  match parseLines lines with
  | .error e => .error e
  | .ok st => .ok ⟨st.xs, st.ys, st.xlab, st.ylab, st.xlim, st.ylim⟩

/-- `load_exp_datafile` with `blocks=False` (the default), on the file's
list of lines. -/
def load_exp_datafile_flat (lines : List String) : Except PyErr FlatResult :=
  match parseLines lines with
  | .error e => .error e
  | .ok st =>
    .ok ⟨(flattenBlocks st.xs st.ys).1, (flattenBlocks st.xs st.ys).2,
         st.xlab, st.ylab, st.xlim, st.ylim⟩

/-- First token of a line when it is a block marker. -/
def markerTok (line : String) : Option String :=
  match tokens line with
  | [] => none
  | t :: _ => if t = "BLOCK" ∨ t = "BLOCKEND" then some t else none

/-- A line passes `scaleOK` when it is not an `XSCALE`/`YSCALE` line with
an unparseable second or third token (the only lines on which the source
raises `ValueError`). -/
def scaleOK (line : String) : Bool :=
  match tokens line with
  | t :: a :: b :: _ =>
    if t = "XSCALE" ∨ t = "YSCALE" then (pyFloat? a).isSome && (pyFloat? b).isSome
    else true
  | _ => true

/-- The marker subsequence of a stream with `N` complete, properly
alternating `BLOCK`/`BLOCKEND` pairs. -/
def pairSeq (N : ℕ) : List String :=
  (List.replicate N ["BLOCK", "BLOCKEND"]).flatten

/-- Well-formed input with `N` complete blocks: the block markers
alternate `BLOCK`, `BLOCKEND`, … exactly `N` times, and no `XSCALE` or
`YSCALE` line carries a malformed numeric token. -/
def wellFormed (lines : List String) (N : ℕ) : Prop :=
  lines.filterMap markerTok = pairSeq N ∧ ∀ l ∈ lines, scaleOK l = true

/-- The marker words the parser gives special treatment. -/
def recognizedMarkers : List String :=
  ["BLOCK", "BLOCKEND", "XTEXT", "YTEXT", "CLIP", "XSCALE", "YSCALE"]

deriving instance DecidableEq for Except

/-! ### Elementary facts about the per-line sections -/

theorem applyMeta_blockin (st : ParseState) (a0 a1 : String) (rest : List String) :
    (applyMeta st a0 a1 rest).blockin = st.blockin := rfl

theorem applyMeta_xblock (st : ParseState) (a0 a1 : String) (rest : List String) :
    (applyMeta st a0 a1 rest).xblock = st.xblock := rfl

theorem applyMeta_yblock (st : ParseState) (a0 a1 : String) (rest : List String) :
    (applyMeta st a0 a1 rest).yblock = st.yblock := rfl

theorem applyMeta_xs (st : ParseState) (a0 a1 : String) (rest : List String) :
    (applyMeta st a0 a1 rest).xs = st.xs := rfl

theorem applyMeta_ys (st : ParseState) (a0 a1 : String) (rest : List String) :
    (applyMeta st a0 a1 rest).ys = st.ys := rfl

theorem applyMeta_xlim (st : ParseState) (a0 a1 : String) (rest : List String) :
    (applyMeta st a0 a1 rest).xlim = st.xlim := rfl

theorem applyMeta_ylim (st : ParseState) (a0 a1 : String) (rest : List String) :
    (applyMeta st a0 a1 rest).ylim = st.ylim := rfl

/-- The data branch never touches the sealed collections, the flags, the
labels or the limits, and keeps `xblock`/`yblock` defined. -/
theorem dataBranch_ok_inv {st st' : ParseState} {a0 a1 : String}
    (h : dataBranch st a0 a1 = .ok st') :
    st'.blockin = st.blockin ∧ st'.clip = st.clip ∧ st'.xs = st.xs ∧ st'.ys = st.ys ∧
    st'.xlab = st.xlab ∧ st'.ylab = st.ylab ∧ st'.xlim = st.xlim ∧ st'.ylim = st.ylim ∧
    st'.xblock.isSome = st.xblock.isSome ∧ st'.yblock.isSome = st.yblock.isSome := by
  unfold dataBranch at h
  split at h
  · split at h
    · split at h
      · cases h
        simp_all
      · split at h
        · cases h
          simp_all
        · split at h
          · cases h
            simp_all
          · cases h
            simp_all
    · cases h
  · cases h
    simp_all

/-- The `len(arr) > 1` section preserves the sealed collections, the
block flag, the limits and definedness of the open block. -/
theorem sec2_preserves {st st' : ParseState} {arr : List String}
    (h : sec2 st arr = .ok st') :
    st'.xs = st.xs ∧ st'.ys = st.ys ∧ st'.blockin = st.blockin ∧
    st'.xlim = st.xlim ∧ st'.ylim = st.ylim ∧
    st'.xblock.isSome = st.xblock.isSome ∧ st'.yblock.isSome = st.yblock.isSome := by
  unfold sec2 at h
  split at h
  · have h' := dataBranch_ok_inv h
    simp only [applyMeta_blockin, applyMeta_xblock, applyMeta_yblock,
      applyMeta_xs, applyMeta_ys, applyMeta_xlim, applyMeta_ylim] at h'
    tauto
  · cases h
    simp

theorem sec1_nil (st : ParseState) : sec1 st [] = .ok st := rfl

theorem sec1_other (st : ParseState) {a0 : String} (rest : List String)
    (h1 : a0 ≠ "BLOCK") (h2 : a0 ≠ "BLOCKEND") :
    sec1 st (a0 :: rest) = .ok st := by
  unfold sec1
  simp [h1, h2]

theorem sec1_block (st : ParseState) (rest : List String) :
    sec1 st ("BLOCK" :: rest) =
      .ok { st with xblock := some [], yblock := some [], blockin := true } := by
  unfold sec1
  simp

theorem sec1_blockend {st : ParseState} {xb yb : List (Option ℚ)} (rest : List String)
    (hx : st.xblock = some xb) (hy : st.yblock = some yb) :
    sec1 st ("BLOCKEND" :: rest) =
      .ok { st with xs := st.xs ++ [xb], ys := st.ys ++ [yb], blockin := false } := by
  unfold sec1
  simp [hx, hy]

theorem sec1_blockend_none {st : ParseState} (rest : List String)
    (hx : st.xblock = none) :
    sec1 st ("BLOCKEND" :: rest) = .error .nameError := by
  unfold sec1
  simp [hx]

/-- The data branch cannot raise while the open block's lists are defined
whenever a block is open. -/
theorem dataBranch_ok (st : ParseState) (a0 a1 : String)
    (hb : st.blockin = true → st.xblock.isSome ∧ st.yblock.isSome) :
    ∃ st', dataBranch st a0 a1 = .ok st' := by
  unfold dataBranch
  split
  · rename_i hbc
    have hbt : st.blockin = true := (Bool.and_eq_true _ _ |>.mp hbc).1
    obtain ⟨hxs, hys⟩ := hb hbt
    obtain ⟨xb, hxb⟩ := Option.isSome_iff_exists.mp hxs
    obtain ⟨yb, hyb⟩ := Option.isSome_iff_exists.mp hys
    rw [hxb, hyb]
    by_cases hp : a1 = "PLOTTED"
    · simp [hp]
    · simp only [hp, if_false]
      cases h0 : pyFloat? a0
      · simp
      · cases h1 : pyFloat? a1 <;> simp
  · exact ⟨st, rfl⟩

/-- The `len(arr) > 1` section cannot raise while the open block's lists
are defined whenever a block is open. -/
theorem sec2_ok (st : ParseState) (arr : List String)
    (hb : st.blockin = true → st.xblock.isSome ∧ st.yblock.isSome) :
    ∃ st', sec2 st arr = .ok st' := by
  unfold sec2
  match arr with
  | [] => exact ⟨st, rfl⟩
  | [a0] => exact ⟨st, rfl⟩
  | a0 :: a1 :: rest =>
    refine dataBranch_ok _ a0 a1 ?_
    rw [applyMeta_blockin, applyMeta_xblock, applyMeta_yblock]
    exact hb

theorem sec3_other (st : ParseState) {a0 : String} (rest : List String)
    (h1 : a0 ≠ "XSCALE") (h2 : a0 ≠ "YSCALE") :
    sec3 st (a0 :: rest) = .ok st := by
  unfold sec3
  rcases rest with _ | ⟨a1, _ | ⟨a2, r⟩⟩ <;> simp [h1, h2]

/-- The `len(arr) > 2` section succeeds on every line that passes
`scaleOK`. -/
theorem sec3_ok (st : ParseState) (l : String) (hs : scaleOK l = true) :
    ∃ st', sec3 st (tokens l) = .ok st' := by
  unfold scaleOK at hs
  rcases htok : tokens l with _ | ⟨a0, _ | ⟨a1, _ | ⟨a2, rest⟩⟩⟩
  · exact ⟨st, rfl⟩
  · exact ⟨st, rfl⟩
  · exact ⟨st, rfl⟩
  · rw [htok] at hs
    by_cases hX : a0 = "XSCALE" ∨ a0 = "YSCALE"
    · simp only [hX, if_true] at hs
      obtain ⟨hA, hB⟩ := Bool.and_eq_true _ _ |>.mp hs
      obtain ⟨v1, h1⟩ := Option.isSome_iff_exists.mp hA
      obtain ⟨v2, h2⟩ := Option.isSome_iff_exists.mp hB
      unfold sec3
      rcases hX with hX | hX <;> simp [hX, h1, h2]
    · push_neg at hX
      exact ⟨st, sec3_other st _ hX.1 hX.2⟩

/-- The `len(arr) > 2` section only ever extends the limits. -/
theorem sec3_preserves {st st' : ParseState} {arr : List String}
    (h : sec3 st arr = .ok st') :
    st'.xs = st.xs ∧ st'.ys = st.ys ∧ st'.blockin = st.blockin ∧
    st'.clip = st.clip ∧ st'.xblock = st.xblock ∧ st'.yblock = st.yblock ∧
    st'.xlab = st.xlab ∧ st'.ylab = st.ylab := by
  unfold sec3 at h
  split at h
  · split at h
    · split at h
      · cases h
        simp_all
      · cases h
    · split at h
      · split at h
        · cases h
          simp_all
        · cases h
      · cases h
        simp_all
  · cases h
    simp

/-- `step` in terms of the three sections. -/
theorem step_sections (st : ParseState) (l : String) :
    step st l = (match sec1 st (tokens l) with
      | .error e => .error e
      | .ok st1 =>
        match sec2 st1 (tokens l) with
        | .error e => .error e
        | .ok st2 => sec3 st2 (tokens l)) := rfl

/-- Chaining the three sections when each succeeds. -/
theorem step_of_secs {st st1 st2 st3 : ParseState} {l : String}
    (h1 : sec1 st (tokens l) = .ok st1) (h2 : sec2 st1 (tokens l) = .ok st2)
    (h3 : sec3 st2 (tokens l) = .ok st3) : step st l = .ok st3 := by
  rw [step_sections, h1]
  show (match sec2 st1 (tokens l) with
    | .error e => (.error e : Except PyErr ParseState)
    | .ok st2 => sec3 st2 (tokens l)) = .ok st3
  rw [h2]
  show sec3 st2 (tokens l) = .ok st3
  exact h3

/-- A successful step of a line with no block marker leaves the sealed
collections, the block flag and definedness of the open block unchanged. -/
theorem step_plain (st : ParseState) (l : String)
    (hm : markerTok l = none) (hs : scaleOK l = true)
    (hb : st.blockin = true → st.xblock.isSome ∧ st.yblock.isSome) :
    ∃ st', step st l = .ok st' ∧ st'.xs = st.xs ∧ st'.ys = st.ys ∧
      st'.blockin = st.blockin ∧
      st'.xblock.isSome = st.xblock.isSome ∧ st'.yblock.isSome = st.yblock.isSome := by
  have h1 : sec1 st (tokens l) = .ok st := by
    unfold markerTok at hm
    rcases htok : tokens l with _ | ⟨a0, rest⟩
    · exact sec1_nil st
    · rw [htok] at hm
      by_cases hB : a0 = "BLOCK" ∨ a0 = "BLOCKEND"
      · simp [hB] at hm
      · push_neg at hB
        exact sec1_other st rest hB.1 hB.2
  obtain ⟨st2, h2⟩ := sec2_ok st (tokens l) hb
  obtain ⟨st3, h3⟩ := sec3_ok st2 l hs
  obtain ⟨p2xs, p2ys, p2bi, _, _, p2xb, p2yb⟩ := sec2_preserves h2
  obtain ⟨p3xs, p3ys, p3bi, _, p3xb, p3yb, _, _⟩ := sec3_preserves h3
  refine ⟨st3, step_of_secs h1 h2 h3, ?_, ?_, ?_, ?_, ?_⟩
  · rw [p3xs, p2xs]
  · rw [p3ys, p2ys]
  · rw [p3bi, p2bi]
  · rw [p3xb, p2xb]
  · rw [p3yb, p2yb]

/-- A successful step of a `BLOCK` line opens a block (fresh defined
lists) and leaves the sealed collections unchanged. -/
theorem step_block_line (st : ParseState) (l : String) (rest : List String)
    (htok : tokens l = "BLOCK" :: rest) :
    ∃ st', step st l = .ok st' ∧ st'.blockin = true ∧
      st'.xs = st.xs ∧ st'.ys = st.ys ∧
      st'.xblock.isSome = true ∧ st'.yblock.isSome = true := by
  have h1 : sec1 st (tokens l) =
      .ok { st with xblock := some [], yblock := some [], blockin := true } := by
    rw [htok]; exact sec1_block st rest
  obtain ⟨st2, h2⟩ :=
    sec2_ok { st with xblock := some [], yblock := some [], blockin := true }
      (tokens l) (fun _ => ⟨rfl, rfl⟩)
  have h3 : sec3 st2 (tokens l) = .ok st2 := by
    rw [htok]
    exact sec3_other st2 rest (by decide) (by decide)
  obtain ⟨p2xs, p2ys, p2bi, _, _, p2xb, p2yb⟩ := sec2_preserves h2
  exact ⟨st2, step_of_secs h1 h2 h3, p2bi, p2xs, p2ys, p2xb, p2yb⟩

/-- A successful step of a `BLOCKEND` line seals the open lists into the
collections and closes the block. -/
theorem step_blockend_line (st : ParseState) (l : String) (rest : List String)
    (xb yb : List (Option ℚ)) (htok : tokens l = "BLOCKEND" :: rest)
    (hx : st.xblock = some xb) (hy : st.yblock = some yb) :
    ∃ st', step st l = .ok st' ∧ st'.blockin = false ∧
      st'.xs = st.xs ++ [xb] ∧ st'.ys = st.ys ++ [yb] ∧
      st'.xblock.isSome = true ∧ st'.yblock.isSome = true := by
  have h1 : sec1 st (tokens l) =
      .ok { st with xs := st.xs ++ [xb], ys := st.ys ++ [yb], blockin := false } := by
    rw [htok]; exact sec1_blockend rest hx hy
  obtain ⟨st2, h2⟩ :=
    sec2_ok { st with xs := st.xs ++ [xb], ys := st.ys ++ [yb], blockin := false }
      (tokens l) (fun h => nomatch h)
  have h3 : sec3 st2 (tokens l) = .ok st2 := by
    rw [htok]
    exact sec3_other st2 rest (by decide) (by decide)
  obtain ⟨p2xs, p2ys, p2bi, _, _, p2xb, p2yb⟩ := sec2_preserves h2
  refine ⟨st2, step_of_secs h1 h2 h3, p2bi, p2xs, p2ys, ?_, ?_⟩
  · rw [p2xb]
    show st.xblock.isSome = true
    rw [hx]
    rfl
  · rw [p2yb]
    show st.yblock.isSome = true
    rw [hy]
    rfl

/-- Inversion of one successful step into its three sections. -/
theorem step_ok_elim {st st' : ParseState} {l : String} (h : step st l = .ok st') :
    ∃ st1 st2, sec1 st (tokens l) = .ok st1 ∧ sec2 st1 (tokens l) = .ok st2 ∧
      sec3 st2 (tokens l) = .ok st' := by
  rw [step_sections] at h
  split at h
  · cases h
  · rename_i st1 h1
    split at h
    · cases h
    · rename_i st2 h2
      exact ⟨st1, st2, h1, h2, h⟩

theorem sec1_blockend_ynone {st : ParseState} (rest : List String)
    (hy : st.yblock = none) :
    sec1 st ("BLOCKEND" :: rest) = .error .nameError := by
  unfold sec1
  rcases hx : st.xblock with _ | xb <;> simp [hx, hy]

/-- The three possible outcomes of a successful `len(arr) > 0` section. -/
theorem sec1_ok_inv {st st' : ParseState} {arr : List String}
    (h : sec1 st arr = .ok st') :
    st' = st ∨
    st' = { st with xblock := some [], yblock := some [], blockin := true } ∨
    ∃ xb yb, st.xblock = some xb ∧ st.yblock = some yb ∧
      st' = { st with xs := st.xs ++ [xb], ys := st.ys ++ [yb], blockin := false } := by
  rcases arr with _ | ⟨a0, rest⟩
  · cases h
    exact Or.inl rfl
  · by_cases hB : a0 = "BLOCK"
    · subst hB
      rw [sec1_block st rest] at h
      cases h
      exact Or.inr (Or.inl rfl)
    · by_cases hE : a0 = "BLOCKEND"
      · subst hE
        rcases hx : st.xblock with _ | xb
        · rw [sec1_blockend_none rest hx] at h
          cases h
        · rcases hy : st.yblock with _ | yb
          · rw [sec1_blockend_ynone rest hy] at h
            cases h
          · rw [sec1_blockend rest hx hy] at h
            cases h
            exact Or.inr (Or.inr ⟨xb, yb, rfl, rfl, by rw [hx, hy]⟩)
      · rw [sec1_other st rest hB hE] at h
        cases h
        exact Or.inl rfl

/-- One successful step keeps the sealed x- and y-collections the same
length: the only line that extends them is a `BLOCKEND`, which appends
exactly one sequence to each. -/
theorem step_len {st st' : ParseState} {l : String} (h : step st l = .ok st')
    (hlen : st.xs.length = st.ys.length) : st'.xs.length = st'.ys.length := by
  obtain ⟨st1, st2, h1, h2, h3⟩ := step_ok_elim h
  obtain ⟨p2xs, p2ys, _⟩ := sec2_preserves h2
  obtain ⟨p3xs, p3ys, _⟩ := sec3_preserves h3
  have h1len : st1.xs.length = st1.ys.length := by
    rcases sec1_ok_inv h1 with rfl | rfl | ⟨xb, yb, _, _, rfl⟩
    · exact hlen
    · exact hlen
    · simp [hlen]
  rw [p3xs, p2xs, p3ys, p2ys]
  exact h1len

theorem runLines_cons (st : ParseState) (l : String) (ls : List String) :
    runLines st (l :: ls) = (match step st l with
      | .error e => .error e
      | .ok st1 => runLines st1 ls) := rfl

theorem runLines_cons_ok {st st1 : ParseState} {l : String} {ls : List String}
    (h : step st l = .ok st1) : runLines st (l :: ls) = runLines st1 ls := by
  rw [runLines_cons, h]

/-- The loop invariant behind the per-block output: the two sealed
collections always have equal length. -/
theorem runLines_len (lines : List String) : ∀ st st',
    runLines st lines = .ok st' →
    st.xs.length = st.ys.length → st'.xs.length = st'.ys.length := by
  induction lines with
  | nil =>
    intro st st' h hlen
    cases h
    exact hlen
  | cons l ls ih =>
    intro st st' h hlen
    unfold runLines at h
    split at h
    · cases h
    · rename_i st1 hstep
      exact ih st1 st' h (step_len hstep hlen)

theorem pairSeq_zero : pairSeq 0 = [] := rfl

theorem pairSeq_succ (N : ℕ) :
    pairSeq (N + 1) = "BLOCK" :: "BLOCKEND" :: pairSeq N := rfl

/-- Inversion of `markerTok`. -/
theorem markerTok_some {l t : String} (h : markerTok l = some t) :
    (t = "BLOCK" ∨ t = "BLOCKEND") ∧ ∃ rest, tokens l = t :: rest := by
  unfold markerTok at h
  split at h
  · cases h
  · rename_i t0 rest heq
    split at h
    · rename_i hor
      cases h
      exact ⟨hor, rest, heq⟩
    · cases h

/-- Main loop lemma for well-formed streams: with properly alternating
block markers and healthy scale lines, the scan succeeds and seals one
block per `BLOCKEND`. The block flag tracks the alternation phase. -/
theorem runLines_wf (lines : List String) : ∀ (st : ParseState) (N : ℕ),
    (∀ l ∈ lines, scaleOK l = true) →
    (st.blockin = true → st.xblock.isSome ∧ st.yblock.isSome) →
    lines.filterMap markerTok =
      (if st.blockin then "BLOCKEND" :: pairSeq N else pairSeq N) →
    ∃ st', runLines st lines = .ok st' ∧
      st'.xs.length = st.xs.length + N + (if st.blockin then 1 else 0) ∧
      st'.ys.length = st.ys.length + N + (if st.blockin then 1 else 0) := by
  induction lines with
  | nil =>
    intro st N hsc hb hmk
    simp only [List.filterMap_nil] at hmk
    by_cases hbi : st.blockin
    · rw [if_pos hbi] at hmk
      exact absurd hmk.symm (by simp)
    · rw [if_neg hbi] at hmk
      have hN : N = 0 := by
        cases N with
        | zero => rfl
        | succ n =>
          rw [pairSeq_succ] at hmk
          exact absurd hmk (by simp)
      subst hN
      refine ⟨st, rfl, ?_, ?_⟩ <;> simp [hbi]
  | cons l ls ih =>
    intro st N hsc hb hmk
    have hscl : scaleOK l = true := hsc l (by simp)
    have hscls : ∀ x ∈ ls, scaleOK x = true := fun x hx => hsc x (by simp [hx])
    rw [List.filterMap_cons] at hmk
    cases hm : markerTok l with
    | none =>
      rw [hm] at hmk
      obtain ⟨st1, hstep, exs, eys, ebi, exb, eyb⟩ := step_plain st l hm hscl hb
      have hb1 : st1.blockin = true → st1.xblock.isSome ∧ st1.yblock.isSome := by
        intro h
        rw [ebi] at h
        obtain ⟨h1, h2⟩ := hb h
        rw [exb, eyb]
        exact ⟨h1, h2⟩
      obtain ⟨st', hrun, hxs, hys⟩ := ih st1 N hscls hb1 (by rw [ebi]; exact hmk)
      refine ⟨st', ?_, ?_, ?_⟩
      · rw [runLines_cons_ok hstep]
        exact hrun
      · rw [hxs, exs, ebi]
      · rw [hys, eys, ebi]
    | some t =>
      rw [hm] at hmk
      obtain ⟨htv, rest, htok⟩ := markerTok_some hm
      rcases htv with htv | htv
      · -- a BLOCK line: only consistent when no block is open
        subst htv
        by_cases hbi : st.blockin
        · rw [if_pos hbi] at hmk
          exact absurd (List.head_eq_of_cons_eq hmk) (by decide)
        · rw [if_neg hbi] at hmk
          cases N with
          | zero =>
            rw [pairSeq_zero] at hmk
            exact absurd hmk (by simp)
          | succ N' =>
            rw [pairSeq_succ] at hmk
            have hmk' : ls.filterMap markerTok = "BLOCKEND" :: pairSeq N' :=
              List.tail_eq_of_cons_eq hmk
            obtain ⟨st1, hstep, ebi, exs, eys, exb, eyb⟩ := step_block_line st l rest htok
            obtain ⟨st', hrun, hxs, hys⟩ := ih st1 N' hscls
              (fun _ => ⟨exb, eyb⟩) (by rw [ebi, if_pos rfl]; exact hmk')
            refine ⟨st', ?_, ?_, ?_⟩
            · rw [runLines_cons_ok hstep]
              exact hrun
            · rw [hxs, exs, ebi, if_neg hbi]
              simp
              omega
            · rw [hys, eys, ebi, if_neg hbi]
              simp
              omega
      · -- a BLOCKEND line: only consistent when a block is open
        subst htv
        by_cases hbi : st.blockin
        · obtain ⟨hxso, hyso⟩ := hb hbi
          obtain ⟨xb, hxb⟩ := Option.isSome_iff_exists.mp hxso
          obtain ⟨yb, hyb⟩ := Option.isSome_iff_exists.mp hyso
          rw [if_pos hbi] at hmk
          have hmk' : ls.filterMap markerTok = pairSeq N :=
            List.tail_eq_of_cons_eq hmk
          obtain ⟨st1, hstep, ebi, exs, eys, exb, eyb⟩ :=
            step_blockend_line st l rest xb yb htok hxb hyb
          obtain ⟨st', hrun, hxs, hys⟩ := ih st1 N hscls
            (fun _ => ⟨exb, eyb⟩) (by rw [ebi, if_neg (by simp)]; exact hmk')
          refine ⟨st', ?_, ?_, ?_⟩
          · rw [runLines_cons_ok hstep]
            exact hrun
          · rw [hxs, exs, ebi, if_pos hbi]
            simp
            omega
          · rw [hys, eys, ebi, if_pos hbi]
            simp
            omega
        · rw [if_neg hbi] at hmk
          cases N with
          | zero =>
            rw [pairSeq_zero] at hmk
            exact absurd hmk (by simp)
          | succ N' =>
            rw [pairSeq_succ] at hmk
            exact absurd (List.head_eq_of_cons_eq hmk) (by decide)

/-- Generalized-accumulator form of the flattening loop. -/
theorem flattenBlocks_aux (xs : List (List (Option ℚ))) :
    ∀ (ys : List (List (Option ℚ))), xs.length = ys.length →
    ∀ ax ay : List (Option ℚ),
    (xs.zip ys).foldl
        (fun p b => (p.1 ++ b.1 ++ [none], p.2 ++ b.2 ++ [none])) (ax, ay) =
      (ax ++ (xs.map (fun b => b ++ [none])).flatten,
       ay ++ (ys.map (fun b => b ++ [none])).flatten) := by
  induction xs with
  | nil =>
    intro ys h ax ay
    cases ys with
    | nil => simp
    | cons y ys => simp at h
  | cons x xs ihx =>
    intro ys h ax ay
    cases ys with
    | nil => simp at h
    | cons y ys =>
      simp only [List.zip_cons_cons, List.foldl_cons]
      rw [ihx ys (by simpa using h)]
      simp [List.append_assoc]

/-- On equally long collections the flattening loop is concatenation with
a `none` delimiter after each block. -/
theorem flattenBlocks_eq (xs ys : List (List (Option ℚ)))
    (h : xs.length = ys.length) :
    flattenBlocks xs ys =
      ((xs.map (fun b => b ++ [none])).flatten,
       (ys.map (fun b => b ++ [none])).flatten) := by
  unfold flattenBlocks
  rw [flattenBlocks_aux xs ys h [] []]
  simp

theorem load_blocks_ok {lines : List String} {st : ParseState}
    (h : parseLines lines = .ok st) :
    load_exp_datafile_blocks lines =
      .ok ⟨st.xs, st.ys, st.xlab, st.ylab, st.xlim, st.ylim⟩ := by
  unfold load_exp_datafile_blocks
  rw [h]

theorem load_flat_ok {lines : List String} {st : ParseState}
    (h : parseLines lines = .ok st) :
    load_exp_datafile_flat lines =
      .ok ⟨(flattenBlocks st.xs st.ys).1, (flattenBlocks st.xs st.ys).2,
           st.xlab, st.ylab, st.xlim, st.ylim⟩ := by
  unfold load_exp_datafile_flat
  rw [h]

theorem step_sec1_error {st : ParseState} {l : String} {e : PyErr}
    (h : sec1 st (tokens l) = .error e) : step st l = .error e := by
  rw [step_sections, h]

theorem step_sec3_error {st st1 st2 : ParseState} {l : String} {e : PyErr}
    (h1 : sec1 st (tokens l) = .ok st1) (h2 : sec2 st1 (tokens l) = .ok st2)
    (h3 : sec3 st2 (tokens l) = .error e) : step st l = .error e := by
  rw [step_sections, h1]
  show (match sec2 st1 (tokens l) with
    | .error e => (.error e : Except PyErr ParseState)
    | .ok st2 => sec3 st2 (tokens l)) = .error e
  rw [h2]
  show sec3 st2 (tokens l) = .error e
  exact h3

/-- A line whose first token is none of the recognized metadata words
leaves `applyMeta` inert. -/
theorem applyMeta_id (st : ParseState) {a0 : String} (a1 : String)
    (rest : List String)
    (h1 : a0 ≠ "XTEXT") (h2 : a0 ≠ "YTEXT") (h3 : a0 ≠ "CLIP") :
    applyMeta st a0 a1 rest = st := by
  unfold applyMeta
  simp [h1, h2, h3]

theorem applyMeta_xlab_xtext (st : ParseState) (a1 : String) (rest : List String) :
    (applyMeta st "XTEXT" a1 rest).xlab = " ".intercalate (a1 :: rest) := by
  unfold applyMeta
  simp

theorem applyMeta_ylab_ytext (st : ParseState) (a1 : String) (rest : List String) :
    (applyMeta st "YTEXT" a1 rest).ylab = " ".intercalate (a1 :: rest) := by
  unfold applyMeta
  simp

theorem applyMeta_clip_on (st : ParseState) (rest : List String) :
    (applyMeta st "CLIP" "ON" rest).clip = true := by
  unfold applyMeta
  simp

theorem applyMeta_clip_off (st : ParseState) (rest : List String) :
    (applyMeta st "CLIP" "OFF" rest).clip = false := by
  unfold applyMeta
  simp

theorem applyMeta_clip_other {a0 : String} (st : ParseState) (a1 : String)
    (rest : List String) (h : a0 ≠ "CLIP") :
    (applyMeta st a0 a1 rest).clip = st.clip := by
  unfold applyMeta
  simp [h]

theorem applyMeta_clip_stays_off {a0 a1 : String} (st : ParseState)
    (rest : List String) (hclip : st.clip = false)
    (hON : ¬(a0 = "CLIP" ∧ a1 = "ON")) :
    (applyMeta st a0 a1 rest).clip = false := by
  unfold applyMeta
  by_cases hOFF : a0 = "CLIP" ∧ a1 = "OFF"
  · simp [hON, hOFF]
  · simp [hON, hOFF, hclip]

/-- With no open block the data branch does nothing. -/
theorem dataBranch_noblock {st : ParseState} (a0 a1 : String)
    (h : st.blockin = false) : dataBranch st a0 a1 = .ok st := by
  unfold dataBranch
  rw [h]
  simp

/-- With clip off the data branch does nothing. -/
theorem dataBranch_clipoff {st : ParseState} (a0 a1 : String)
    (h : st.clip = false) : dataBranch st a0 a1 = .ok st := by
  unfold dataBranch
  rw [h]
  simp

/-- Failing to parse the first token skips the line entirely. -/
theorem dataBranch_skip {st : ParseState} {a0 a1 : String}
    {xb yb : List (Option ℚ)}
    (hin : st.blockin = true) (hclip : st.clip = true)
    (hxb : st.xblock = some xb) (hyb : st.yblock = some yb)
    (hp : a1 ≠ "PLOTTED") (h0 : pyFloat? a0 = none) :
    dataBranch st a0 a1 = .ok st := by
  unfold dataBranch
  rw [hin, hclip, hxb, hyb]
  simp [hp, h0]

/-- Parsing the first token but not the second appends to the x-list
only. -/
theorem dataBranch_partial {st : ParseState} {a0 a1 : String}
    {xb yb : List (Option ℚ)} {v : ℚ}
    (hin : st.blockin = true) (hclip : st.clip = true)
    (hxb : st.xblock = some xb) (hyb : st.yblock = some yb)
    (hp : a1 ≠ "PLOTTED") (h0 : pyFloat? a0 = some v)
    (h1 : pyFloat? a1 = none) :
    dataBranch st a0 a1 = .ok { st with xblock := some (xb ++ [some v]) } := by
  unfold dataBranch
  rw [hin, hclip, hxb, hyb]
  simp [hp, h0, h1]

/-- A `PLOTTED` second token appends the sentinel to both lists. -/
theorem dataBranch_plotted {st : ParseState} (a0 : String)
    {xb yb : List (Option ℚ)}
    (hin : st.blockin = true) (hclip : st.clip = true)
    (hxb : st.xblock = some xb) (hyb : st.yblock = some yb) :
    dataBranch st a0 "PLOTTED" =
      .ok { st with xblock := some (xb ++ [none]), yblock := some (yb ++ [none]) } := by
  unfold dataBranch
  rw [hin, hclip, hxb, hyb]
  simp

theorem sec2_nil (st : ParseState) : sec2 st [] = .ok st := rfl

theorem sec2_one (st : ParseState) (a0 : String) : sec2 st [a0] = .ok st := rfl

theorem sec2_cons (st : ParseState) (a0 a1 : String) (rest : List String) :
    sec2 st (a0 :: a1 :: rest) = dataBranch (applyMeta st a0 a1 rest) a0 a1 := rfl

theorem sec3_xscale (st : ParseState) {a b : String} (rest : List String)
    {v1 v2 : ℚ} (ha : pyFloat? a = some v1) (hb : pyFloat? b = some v2) :
    sec3 st ("XSCALE" :: a :: b :: rest) =
      .ok { st with xlim := st.xlim ++ [v1, v2] } := by
  unfold sec3
  simp [ha, hb]

theorem sec3_yscale (st : ParseState) {a b : String} (rest : List String)
    {v1 v2 : ℚ} (ha : pyFloat? a = some v1) (hb : pyFloat? b = some v2) :
    sec3 st ("YSCALE" :: a :: b :: rest) =
      .ok { st with ylim := st.ylim ++ [v1, v2] } := by
  unfold sec3
  simp [ha, hb]

theorem sec3_xscale_err (st : ParseState) {a b : String} (rest : List String)
    (hfail : pyFloat? a = none ∨ pyFloat? b = none) :
    sec3 st ("XSCALE" :: a :: b :: rest) = .error .valueError := by
  unfold sec3
  rcases hfa : pyFloat? a with _ | va
  · simp [hfa]
  · rcases hfail with hf | hf
    · rw [hf] at hfa
      cases hfa
    · simp [hfa, hf]

theorem sec3_yscale_err (st : ParseState) {a b : String} (rest : List String)
    (hfail : pyFloat? a = none ∨ pyFloat? b = none) :
    sec3 st ("YSCALE" :: a :: b :: rest) = .error .valueError := by
  unfold sec3
  rcases hfa : pyFloat? a with _ | va
  · simp [hfa]
  · rcases hfail with hf | hf
    · rw [hf] at hfa
      cases hfa
    · simp [hfa, hf]

/-- Fields other than the sealed collections and the block flag survive a
non-`BLOCK` first section. -/
theorem sec1_other_fields {st st' : ParseState} {a0 : String} {rest : List String}
    (h : sec1 st (a0 :: rest) = .ok st') (hB : a0 ≠ "BLOCK") :
    st'.xblock = st.xblock ∧ st'.yblock = st.yblock ∧ st'.clip = st.clip := by
  by_cases hE : a0 = "BLOCKEND"
  · subst hE
    rcases hx : st.xblock with _ | xb
    · rw [sec1_blockend_none rest hx] at h
      cases h
    · rcases hy : st.yblock with _ | yb
      · rw [sec1_blockend_ynone rest hy] at h
        cases h
      · rw [sec1_blockend rest hx hy] at h
        cases h
        exact ⟨hx, hy, rfl⟩
  · rw [sec1_other st rest hB hE] at h
    cases h
    exact ⟨rfl, rfl, rfl⟩

/-- The first section never touches the clip flag. -/
theorem sec1_clip {st st' : ParseState} {arr : List String}
    (h : sec1 st arr = .ok st') : st'.clip = st.clip := by
  rcases sec1_ok_inv h with rfl | rfl | ⟨xb, yb, _, _, rfl⟩ <;> rfl

/-! ### Claim theorems -/

/-- State with one freshly opened, still empty block (the state reached
from `initState` by a `BLOCK` line); used to instantiate the general
theorems below. -/
def stOpen : ParseState :=
  { initState with blockin := true, xblock := some [], yblock := some [] }

/-- State just after a first block has been sealed (reached from
`initState` by `BLOCK` then `BLOCKEND`). -/
def stSealed : ParseState :=
  { initState with xblock := some [], yblock := some [], xs := [[]], ys := [[]] }

/-- **C1, counterexample.** The claim says that inside an open block with
clip on, a two-token line whose second token fails float parsing is
discarded atomically, with neither sequence changed. On the line
`"1.0 abc"` the code has already appended `1.0` to the x-sequence when
`float("abc")` fails, so the sealed block has a lone x-value and an empty
y-sequence: a partial append. -/
theorem C1_counterexample :
    pyFloat? "abc" = none ∧
    load_exp_datafile_blocks ["BLOCK", "1.0 abc", "BLOCKEND"] =
      .ok ⟨[[some 1]], [[]], "", "", [], []⟩ :=
  ⟨by decide, by decide⟩

/-- **C1, amended.** Inside an open block with clip on, for a line of at
least two tokens whose first token is not a recognized marker and whose
second token is not `PLOTTED`: if the first token fails float parsing the
line is discarded with no change and no error; but if the first token
parses and the second fails, the first value is appended to the open
x-sequence while the y-sequence is left unchanged (a partial append),
still with no error. -/
theorem C1_parse_failure (st : ParseState) (l a0 a1 : String)
    (rest : List String) (xb yb : List (Option ℚ))
    (htok : tokens l = a0 :: a1 :: rest)
    (hmk : a0 ∉ recognizedMarkers) (hp : a1 ≠ "PLOTTED")
    (hin : st.blockin = true) (hclip : st.clip = true)
    (hxb : st.xblock = some xb) (hyb : st.yblock = some yb) :
    (pyFloat? a0 = none → step st l = .ok st) ∧
    (∀ v : ℚ, pyFloat? a0 = some v → pyFloat? a1 = none →
      step st l = .ok { st with xblock := some (xb ++ [some v]) }) := by
  simp only [recognizedMarkers, List.mem_cons, List.not_mem_nil, or_false,
    not_or] at hmk
  obtain ⟨hB, hE, hXT, hYT, hC, hXS, hYS⟩ := hmk
  have h1 : sec1 st (tokens l) = .ok st := by
    rw [htok]
    exact sec1_other st _ hB hE
  have hmeta : applyMeta st a0 a1 rest = st := applyMeta_id st a1 rest hXT hYT hC
  constructor
  · intro h0
    have h2 : sec2 st (tokens l) = .ok st := by
      rw [htok, sec2_cons, hmeta]
      exact dataBranch_skip hin hclip hxb hyb hp h0
    have h3 : sec3 st (tokens l) = .ok st := by
      rw [htok]
      exact sec3_other st _ hXS hYS
    exact step_of_secs h1 h2 h3
  · intro v h0 hfail
    have h2 : sec2 st (tokens l) =
        .ok { st with xblock := some (xb ++ [some v]) } := by
      rw [htok, sec2_cons, hmeta]
      exact dataBranch_partial hin hclip hxb hyb hp h0 hfail
    have h3 : sec3 { st with xblock := some (xb ++ [some v]) } (tokens l) =
        .ok { st with xblock := some (xb ++ [some v]) } := by
      rw [htok]
      exact sec3_other _ _ hXS hYS
    exact step_of_secs h1 h2 h3

/-- **C1, witness.** Inside a freshly opened block, the line `"1.5 zzz"`
appends `1.5` to the x-list and nothing to the y-list. -/
theorem C1_witness :
    step stOpen "1.5 zzz" = .ok { stOpen with xblock := some [some (mkRat 3 2)] } :=
  (C1_parse_failure stOpen "1.5 zzz" "1.5" "zzz" [] [] []
      (by decide) (by decide) (by decide) rfl rfl rfl rfl).2
    (mkRat 3 2) (by decide) (by decide)

/-- **C2, counterexample.** The claim says a `BLOCKEND` with no block
open is a no-op: nothing appended, no duplicate block, no error. In the
code a `BLOCKEND` before any `BLOCK` raises a `NameError` (the block
lists are undefined), and a `BLOCKEND` after a sealed block re-appends
the stale lists, duplicating the block in the output. -/
theorem C2_counterexample :
    load_exp_datafile_blocks ["BLOCKEND"] = .error .nameError ∧
    load_exp_datafile_blocks ["BLOCK", "1.0 2.0", "BLOCKEND", "BLOCKEND"] =
      .ok ⟨[[some 1], [some 1]], [[some 2], [some 2]], "", "", [], []⟩ :=
  ⟨by decide, by decide⟩

/-- **C2, amended.** A `BLOCKEND` line read while no block is open raises
a `NameError` when no `BLOCK` marker has occurred at all, and otherwise
re-appends the current (already sealed) block lists to the result
collections — producing a duplicate block — rather than acting as a
no-op. -/
theorem C2_blockend_not_noop (st : ParseState) (l : String)
    (rest : List String)
    (htok : tokens l = "BLOCKEND" :: rest) (_hopen : st.blockin = false) :
    (st.xblock = none → step st l = .error .nameError) ∧
    (∀ xb yb, st.xblock = some xb → st.yblock = some yb →
      step st l =
        .ok { st with xs := st.xs ++ [xb], ys := st.ys ++ [yb], blockin := false }) := by
  constructor
  · intro hx
    apply step_sec1_error
    rw [htok]
    exact sec1_blockend_none rest hx
  · intro xb yb hx hy
    have h1 : sec1 st (tokens l) =
        .ok { st with xs := st.xs ++ [xb], ys := st.ys ++ [yb], blockin := false } := by
      rw [htok]
      exact sec1_blockend rest hx hy
    have h2 : sec2 { st with xs := st.xs ++ [xb], ys := st.ys ++ [yb], blockin := false } (tokens l) =
        .ok { st with xs := st.xs ++ [xb], ys := st.ys ++ [yb], blockin := false } := by
      rw [htok]
      rcases rest with _ | ⟨a1, r⟩
      · exact sec2_one _ _
      · rw [sec2_cons, applyMeta_id _ a1 r (by decide) (by decide) (by decide)]
        exact dataBranch_noblock _ _ rfl
    have h3 : sec3 { st with xs := st.xs ++ [xb], ys := st.ys ++ [yb], blockin := false } (tokens l) =
        .ok { st with xs := st.xs ++ [xb], ys := st.ys ++ [yb], blockin := false } := by
      rw [htok]
      exact sec3_other _ _ (by decide) (by decide)
    exact step_of_secs h1 h2 h3

/-- **C2, witness.** After `BLOCK`, `BLOCKEND`, a second `BLOCKEND` step
re-appends the empty block lists to the collections. -/
theorem C2_witness :
    step stSealed "BLOCKEND" =
      .ok { stSealed with xs := [[], []], ys := [[], []], blockin := false } :=
  (C2_blockend_not_noop stSealed "BLOCKEND" [] (by decide) rfl).2 [] [] rfl rfl

/-- **C3, counterexample.** The claim says the parser never raises on
malformed numeric tokens anywhere, including `XSCALE`/`YSCALE` lines. The
`float` calls of the `XSCALE`/`YSCALE` section are outside any
`try/except`, so `"XSCALE abc 100"` raises a `ValueError`. -/
theorem C3_counterexample :
    load_exp_datafile_flat ["XSCALE abc 100"] = .error .valueError := by
  decide

/-- **C3, amended.** Numeric parse failures in the coordinate-data branch
are silently swallowed (the step succeeds), but an `XSCALE` or `YSCALE`
line with at least three tokens whose second or third token fails float
parsing raises an uncaught `ValueError` that aborts the parse. -/
theorem C3_scale_raises :
    (∀ (st : ParseState) (l a0 a1 : String) (rest : List String)
       (xb yb : List (Option ℚ)), tokens l = a0 :: a1 :: rest →
       a0 ∉ recognizedMarkers →
       st.blockin = true → st.clip = true →
       st.xblock = some xb → st.yblock = some yb →
       ∃ st', step st l = .ok st') ∧
    (∀ (st : ParseState) (l a b : String) (rest : List String),
       tokens l = "XSCALE" :: a :: b :: rest →
       (st.blockin = true → st.xblock.isSome ∧ st.yblock.isSome) →
       (pyFloat? a = none ∨ pyFloat? b = none) →
       step st l = .error .valueError) ∧
    (∀ (st : ParseState) (l a b : String) (rest : List String),
       tokens l = "YSCALE" :: a :: b :: rest →
       (st.blockin = true → st.xblock.isSome ∧ st.yblock.isSome) →
       (pyFloat? a = none ∨ pyFloat? b = none) →
       step st l = .error .valueError) := by
  refine ⟨?_, ?_, ?_⟩
  · intro st l a0 a1 rest xb yb htok hmk hin hclip hxb hyb
    simp only [recognizedMarkers, List.mem_cons, List.not_mem_nil, or_false,
      not_or] at hmk
    obtain ⟨hB, hE, _, _, _, hXS, hYS⟩ := hmk
    have h1 : sec1 st (tokens l) = .ok st := by
      rw [htok]
      exact sec1_other st _ hB hE
    obtain ⟨st2, h2⟩ := sec2_ok st (tokens l)
      (fun _ => ⟨by rw [hxb]; rfl, by rw [hyb]; rfl⟩)
    have h3 : sec3 st2 (tokens l) = .ok st2 := by
      rw [htok]
      exact sec3_other st2 _ hXS hYS
    exact ⟨st2, step_of_secs h1 h2 h3⟩
  · intro st l a b rest htok hb hfail
    have h1 : sec1 st (tokens l) = .ok st := by
      rw [htok]
      exact sec1_other st _ (by decide) (by decide)
    obtain ⟨st2, h2⟩ := sec2_ok st (tokens l) hb
    refine step_sec3_error h1 h2 ?_
    rw [htok]
    exact sec3_xscale_err st2 _ hfail
  · intro st l a b rest htok hb hfail
    have h1 : sec1 st (tokens l) = .ok st := by
      rw [htok]
      exact sec1_other st _ (by decide) (by decide)
    obtain ⟨st2, h2⟩ := sec2_ok st (tokens l) hb
    refine step_sec3_error h1 h2 ?_
    rw [htok]
    exact sec3_yscale_err st2 _ hfail

/-- **C3, witness.** Stepping `"XSCALE abc 100"` from the initial state
raises `ValueError`. -/
theorem C3_witness : step initState "XSCALE abc 100" = .error .valueError :=
  C3_scale_raises.2.1 initState "XSCALE abc 100" "abc" "100" []
    (by decide) (fun h => nomatch h) (Or.inl (by decide))

/-- **C4, counterexample.** The claim says the data branch is an `else`
case exclusive with the `XTEXT`/`YTEXT`/`CLIP` marker cases, so no
sentinel can be appended on such a line. The code has no `else`: the line
`"XTEXT PLOTTED"` inside an open block with clip on both sets the x-label
to `"PLOTTED"` and appends the `(None, None)` sentinel to the open
block. -/
theorem C4_counterexample :
    load_exp_datafile_blocks ["BLOCK", "XTEXT PLOTTED", "BLOCKEND"] =
      .ok ⟨[[none]], [[none]], "PLOTTED", "", [], []⟩ := by
  decide

/-- **C4, amended.** The marker cases are independent `if` statements,
not exclusive with the data handling: an `XTEXT`, `YTEXT` or `CLIP` line
processed while a block is open and clip stays on also reaches the data
branch. When its second token is `PLOTTED` a `(None, None)` sentinel is
appended to the open block; otherwise nothing is appended, only because
the marker word itself fails float parsing. -/
theorem C4_marker_reaches_data (st : ParseState) (l m a1 : String)
    (rest : List String) (xb yb : List (Option ℚ))
    (htok : tokens l = m :: a1 :: rest)
    (hm : m ∈ (["XTEXT", "YTEXT", "CLIP"] : List String))
    (hoff : ¬(m = "CLIP" ∧ a1 = "OFF"))
    (hin : st.blockin = true) (hclip : st.clip = true)
    (hxb : st.xblock = some xb) (hyb : st.yblock = some yb) :
    step st l = .ok (if a1 = "PLOTTED" then
        { applyMeta st m a1 rest with xblock := some (xb ++ [none]), yblock := some (yb ++ [none]) }
      else applyMeta st m a1 rest) := by
  simp only [List.mem_cons, List.not_mem_nil, or_false] at hm
  have hB : m ≠ "BLOCK" := by
    rcases hm with rfl | rfl | rfl <;> decide
  have hE : m ≠ "BLOCKEND" := by
    rcases hm with rfl | rfl | rfl <;> decide
  have hXS : m ≠ "XSCALE" := by
    rcases hm with rfl | rfl | rfl <;> decide
  have hYS : m ≠ "YSCALE" := by
    rcases hm with rfl | rfl | rfl <;> decide
  have hfloat : pyFloat? m = none := by
    rcases hm with rfl | rfl | rfl <;> decide
  have h1 : sec1 st (tokens l) = .ok st := by
    rw [htok]
    exact sec1_other st _ hB hE
  have hmb : (applyMeta st m a1 rest).blockin = true := by
    rw [applyMeta_blockin]
    exact hin
  have hmxb : (applyMeta st m a1 rest).xblock = some xb := by
    rw [applyMeta_xblock]
    exact hxb
  have hmyb : (applyMeta st m a1 rest).yblock = some yb := by
    rw [applyMeta_yblock]
    exact hyb
  have hmclip : (applyMeta st m a1 rest).clip = true := by
    rcases hm with rfl | rfl | rfl
    · rw [applyMeta_clip_other st a1 rest (by decide)]
      exact hclip
    · rw [applyMeta_clip_other st a1 rest (by decide)]
      exact hclip
    · by_cases hON : a1 = "ON"
      · subst hON
        exact applyMeta_clip_on st rest
      · have hOFF : a1 ≠ "OFF" := fun h => hoff ⟨rfl, h⟩
        unfold applyMeta
        simp [hON, hOFF, hclip]
  by_cases hp : a1 = "PLOTTED"
  · subst hp
    rw [if_pos rfl]
    have h2 : sec2 st (tokens l) =
        .ok { applyMeta st m "PLOTTED" rest with xblock := some (xb ++ [none]), yblock := some (yb ++ [none]) } := by
      rw [htok, sec2_cons]
      exact dataBranch_plotted m hmb hmclip hmxb hmyb
    have h3 : sec3 { applyMeta st m "PLOTTED" rest with xblock := some (xb ++ [none]), yblock := some (yb ++ [none]) } (tokens l) =
        .ok { applyMeta st m "PLOTTED" rest with xblock := some (xb ++ [none]), yblock := some (yb ++ [none]) } := by
      rw [htok]
      exact sec3_other _ _ hXS hYS
    exact step_of_secs h1 h2 h3
  · rw [if_neg hp]
    have h2 : sec2 st (tokens l) = .ok (applyMeta st m a1 rest) := by
      rw [htok, sec2_cons]
      exact dataBranch_skip hmb hmclip hmxb hmyb hp hfloat
    have h3 : sec3 (applyMeta st m a1 rest) (tokens l) =
        .ok (applyMeta st m a1 rest) := by
      rw [htok]
      exact sec3_other _ _ hXS hYS
    exact step_of_secs h1 h2 h3

/-- **C4, witness.** In a freshly opened block, `"XTEXT PLOTTED"` both
sets the label and appends the sentinel pair. -/
theorem C4_witness :
    step stOpen "XTEXT PLOTTED" =
      .ok { applyMeta stOpen "XTEXT" "PLOTTED" [] with xblock := some [none], yblock := some [none] } := by
  have h := C4_marker_reaches_data stOpen "XTEXT PLOTTED" "XTEXT" "PLOTTED" []
    [] [] (by decide) (by decide) (by decide) rfl rfl rfl rfl
  rw [if_pos rfl] at h
  exact h

/-- **C5.** The six-line round-trip file parses in flattened mode to the
two labelled coordinate pairs followed by one trailing `None`, with both
labels set and both limit lists empty. -/
theorem C5_roundtrip :
    load_exp_datafile_flat ["XTEXT Temperature", "YTEXT Energy", "BLOCK", "1.0 2.0", "2.0 3.0", "BLOCKEND"] =
      .ok ⟨[some 1, some 2, none], [some 2, some 3, none], "Temperature", "Energy", [], []⟩ := by
  decide

/-- **C6.** On a well-formed stream with `N` complete `BLOCK`/`BLOCKEND`
pairs, per-block mode returns exactly `N` x-sequences and `N`
y-sequences, and flattened mode returns the same blocks concatenated in
order with a `None` delimiter after each block. -/
theorem C6_block_counts (lines : List String) (N : ℕ)
    (h : wellFormed lines N) :
    ∃ rb rf, load_exp_datafile_blocks lines = .ok rb ∧
      load_exp_datafile_flat lines = .ok rf ∧
      rb.x.length = N ∧ rb.y.length = N ∧
      rf.x = (rb.x.map (fun b => b ++ [none])).flatten ∧
      rf.y = (rb.y.map (fun b => b ++ [none])).flatten := by
  obtain ⟨hmk, hsc⟩ := h
  obtain ⟨st', hrun, hxs, hys⟩ := runLines_wf lines initState N hsc
    (fun hco => nomatch hco) (by rw [if_neg (by decide)]; exact hmk)
  have hparse : parseLines lines = .ok st' := hrun
  have hlen : st'.xs.length = N := by
    simpa [initState] using hxs
  have hlen' : st'.ys.length = N := by
    simpa [initState] using hys
  have hfl := flattenBlocks_eq st'.xs st'.ys (by rw [hlen, hlen'])
  refine ⟨⟨st'.xs, st'.ys, st'.xlab, st'.ylab, st'.xlim, st'.ylim⟩,
    ⟨(flattenBlocks st'.xs st'.ys).1, (flattenBlocks st'.xs st'.ys).2,
     st'.xlab, st'.ylab, st'.xlim, st'.ylim⟩,
    load_blocks_ok hparse, load_flat_ok hparse, hlen, hlen', ?_, ?_⟩
  · rw [hfl]
  · rw [hfl]

/-- **C6, witness.** A two-block stream: per-block mode yields two
sequences each way and the flattened form is their delimited
concatenation. -/
theorem C6_witness :
    wellFormed ["BLOCK", "1.0 2.0", "BLOCKEND", "BLOCK", "BLOCKEND"] 2 ∧
    (∃ rb rf,
      load_exp_datafile_blocks ["BLOCK", "1.0 2.0", "BLOCKEND", "BLOCK", "BLOCKEND"] = .ok rb ∧
      load_exp_datafile_flat ["BLOCK", "1.0 2.0", "BLOCKEND", "BLOCK", "BLOCKEND"] = .ok rf ∧
      rb.x.length = 2 ∧ rb.y.length = 2 ∧
      rf.x = (rb.x.map (fun b => b ++ [none])).flatten ∧
      rf.y = (rb.y.map (fun b => b ++ [none])).flatten) :=
  have hwf : wellFormed ["BLOCK", "1.0 2.0", "BLOCKEND", "BLOCK", "BLOCKEND"] 2 :=
    ⟨by decide, by decide⟩
  ⟨hwf, C6_block_counts _ 2 hwf⟩

/-- **C9.** In per-block mode the returned x- and y-collections always
have the same length: only a `BLOCKEND` appends to them, and it appends
exactly one sequence to each; the invariant holds after every line of
every stream that parses. -/
theorem C9_parallel_lengths (lines : List String) (r : BlocksResult)
    (h : load_exp_datafile_blocks lines = .ok r) : r.x.length = r.y.length := by
  unfold load_exp_datafile_blocks at h
  split at h
  · cases h
  · rename_i st hst
    cases h
    exact runLines_len lines initState st hst rfl

/-- **C9, witness.** The invariant at a concrete one-block stream. -/
theorem C9_witness :
    (⟨[[some 1]], [[some 2]], "", "", [], []⟩ : BlocksResult).x.length =
      (⟨[[some 1]], [[some 2]], "", "", [], []⟩ : BlocksResult).y.length :=
  C9_parallel_lengths ["BLOCK", "1.0 2.0", "BLOCKEND"]
    ⟨[[some 1]], [[some 2]], "", "", [], []⟩ (by decide)

theorem sec3_nil (st : ParseState) : sec3 st [] = .ok st := rfl

theorem sec3_one (st : ParseState) (a0 : String) : sec3 st [a0] = .ok st := rfl

theorem sec3_two (st : ParseState) (a0 a1 : String) :
    sec3 st [a0, a1] = .ok st := rfl

/-- The `len(arr) > 1` section preserves the clip flag on every line
whose first token is not `CLIP`. -/
theorem sec2_clip_other {st st' : ParseState} {arr : List String}
    (h : sec2 st arr = .ok st') (hne : arr.head? ≠ some "CLIP") :
    st'.clip = st.clip := by
  rcases arr with _ | ⟨a0, _ | ⟨a1, rest⟩⟩
  · rw [sec2_nil] at h
    cases h
    rfl
  · rw [sec2_one] at h
    cases h
    rfl
  · have ha0 : a0 ≠ "CLIP" := by simpa using hne
    rw [sec2_cons] at h
    rw [(dataBranch_ok_inv h).2.1, applyMeta_clip_other st a1 rest ha0]

/-- A successful step of a line that does not start with `CLIP` does not
change the clip flag (in particular `BLOCK` and `BLOCKEND` lines keep
it). -/
theorem step_clip_other {st st' : ParseState} {l : String}
    (h : step st l = .ok st') (hne : (tokens l).head? ≠ some "CLIP") :
    st'.clip = st.clip := by
  obtain ⟨st1, st2, h1, h2, h3⟩ := step_ok_elim h
  rw [(sec3_preserves h3).2.2.2.1, sec2_clip_other h2 hne, sec1_clip h1]

/-- While clip is off, a successful step of any line that does not turn
it back on and does not open a new block leaves the open block's lists
untouched and clip still off. -/
theorem step_clip_off {st st' : ParseState} {l : String}
    (hclip : st.clip = false) (h : step st l = .ok st')
    (hON : (tokens l).take 2 ≠ ["CLIP", "ON"])
    (hB : (tokens l).head? ≠ some "BLOCK") :
    st'.xblock = st.xblock ∧ st'.yblock = st.yblock ∧ st'.clip = false := by
  obtain ⟨st1, st2, h1, h2, h3⟩ := step_ok_elim h
  obtain ⟨_, _, _, p3clip, p3xb, p3yb, _, _⟩ := sec3_preserves h3
  rcases htok : tokens l with _ | ⟨a0, _ | ⟨a1, r⟩⟩ <;> rw [htok] at h1 h2 h3
  · rw [sec1_nil] at h1
    cases h1
    rw [sec2_nil] at h2
    cases h2
    rw [sec3_nil] at h3
    cases h3
    exact ⟨rfl, rfl, hclip⟩
  · rw [htok] at hB
    have ha0 : a0 ≠ "BLOCK" := by simpa using hB
    obtain ⟨e1xb, e1yb, e1clip⟩ := sec1_other_fields h1 ha0
    rw [sec2_one] at h2
    cases h2
    rw [p3xb, p3yb, p3clip, e1xb, e1yb, e1clip]
    exact ⟨rfl, rfl, hclip⟩
  · rw [htok] at hB hON
    have ha0 : a0 ≠ "BLOCK" := by simpa using hB
    obtain ⟨e1xb, e1yb, e1clip⟩ := sec1_other_fields h1 ha0
    have hON' : ¬(a0 = "CLIP" ∧ a1 = "ON") := by
      intro hand
      exact hON (by rw [List.take, List.take, hand.1, hand.2]; rfl)
    rw [sec2_cons] at h2
    have hclip1 : st1.clip = false := by
      rw [e1clip]
      exact hclip
    have hclipm : (applyMeta st1 a0 a1 r).clip = false :=
      applyMeta_clip_stays_off st1 r hclip1 hON'
    rw [dataBranch_clipoff a0 a1 hclipm] at h2
    cases h2
    rw [p3xb, p3yb, p3clip, applyMeta_xblock, applyMeta_yblock, e1xb, e1yb]
    exact ⟨rfl, rfl, hclipm⟩

/-- **C7.** The clip flag starts on, survives every line that does not
begin with `CLIP` (in particular block boundaries), and while off no
coordinate line changes the open block's lists; the concrete
`CLIP OFF` / `CLIP ON` block keeps only the pair `(3.0, 4.0)`. -/
theorem C7_clip_toggle :
    initState.clip = true ∧
    (∀ (st st' : ParseState) (l : String), step st l = .ok st' →
      (tokens l).head? ≠ some "CLIP" → st'.clip = st.clip) ∧
    (∀ (st st' : ParseState) (l : String), st.clip = false →
      step st l = .ok st' → (tokens l).take 2 ≠ ["CLIP", "ON"] →
      (tokens l).head? ≠ some "BLOCK" →
      st'.xblock = st.xblock ∧ st'.yblock = st.yblock ∧ st'.clip = false) ∧
    load_exp_datafile_blocks ["BLOCK", "CLIP OFF", "1.0 2.0", "CLIP ON", "3.0 4.0", "BLOCKEND"] =
      .ok ⟨[[some 3]], [[some 4]], "", "", [], []⟩ := by
  refine ⟨rfl, ?_, ?_, by decide⟩
  · intro st st' l h hne
    exact step_clip_other h hne
  · intro st st' l hclip h hON hB
    exact step_clip_off hclip h hON hB

/-- **C7, witness.** Clip survives an `XTEXT` line that changes the
state. -/
theorem C7_witness :
    ({ initState with xlab := "A" } : ParseState).clip = initState.clip :=
  C7_clip_toggle.2.1 initState { initState with xlab := "A" } "XTEXT A"
    (by decide) (by decide)

/-- **C8.** Every `XSCALE` line with at least three (parseable) tokens
appends the two float values to `xlim`, `YSCALE` likewise to `ylim`; the
concrete pair of lines yields `[0, 100]` and `[-5, 5]`, and a repeated
`XSCALE` accumulates to four elements with no overwrite or truncation. -/
theorem C8_scale_accumulate :
    (∀ (st st' : ParseState) (l a b : String) (rest : List String) (v1 v2 : ℚ),
       tokens l = "XSCALE" :: a :: b :: rest →
       pyFloat? a = some v1 → pyFloat? b = some v2 → step st l = .ok st' →
       st'.xlim = st.xlim ++ [v1, v2] ∧ st'.ylim = st.ylim) ∧
    (∀ (st st' : ParseState) (l a b : String) (rest : List String) (v1 v2 : ℚ),
       tokens l = "YSCALE" :: a :: b :: rest →
       pyFloat? a = some v1 → pyFloat? b = some v2 → step st l = .ok st' →
       st'.ylim = st.ylim ++ [v1, v2] ∧ st'.xlim = st.xlim) ∧
    load_exp_datafile_flat ["XSCALE 0 100", "YSCALE -5 5"] =
      .ok ⟨[], [], "", "", [0, 100], [-5, 5]⟩ ∧
    load_exp_datafile_flat ["XSCALE 0 100", "XSCALE 1 2"] =
      .ok ⟨[], [], "", "", [0, 100, 1, 2], []⟩ := by
  refine ⟨?_, ?_, by decide, by decide⟩
  · intro st st' l a b rest v1 v2 htok ha hb h
    obtain ⟨st1, st2, h1, h2, h3⟩ := step_ok_elim h
    rw [htok, sec1_other st _ (by decide) (by decide)] at h1
    cases h1
    obtain ⟨_, _, _, p2xlim, p2ylim, _, _⟩ := sec2_preserves h2
    rw [htok, sec3_xscale st2 rest ha hb] at h3
    cases h3
    constructor
    · show st2.xlim ++ [v1, v2] = st.xlim ++ [v1, v2]
      rw [p2xlim]
    · show st2.ylim = st.ylim
      rw [p2ylim]
  · intro st st' l a b rest v1 v2 htok ha hb h
    obtain ⟨st1, st2, h1, h2, h3⟩ := step_ok_elim h
    rw [htok, sec1_other st _ (by decide) (by decide)] at h1
    cases h1
    obtain ⟨_, _, _, p2xlim, p2ylim, _, _⟩ := sec2_preserves h2
    rw [htok, sec3_yscale st2 rest ha hb] at h3
    cases h3
    constructor
    · show st2.ylim ++ [v1, v2] = st.ylim ++ [v1, v2]
      rw [p2ylim]
    · show st2.xlim = st.xlim
      rw [p2xlim]

/-- **C8, witness.** `"XSCALE 0 100"` from the initial state appends
`0` and `100` to the empty `xlim` and leaves `ylim` alone. -/
theorem C8_witness :
    ({ initState with xlim := [(0 : ℚ), 100] } : ParseState).xlim =
      initState.xlim ++ [0, 100] ∧
    ({ initState with xlim := [(0 : ℚ), 100] } : ParseState).ylim =
      initState.ylim :=
  C8_scale_accumulate.1 initState { initState with xlim := [(0 : ℚ), 100] }
    "XSCALE 0 100" "0" "100" [] 0 100 (by decide) (by decide) (by decide)
    (by decide)

/-- **C10.** The metadata markers are handled by unconditional `if`
statements, independent of the block and clip state: on any state whose
step succeeds, an `XTEXT`/`YTEXT` line sets the label and `CLIP ON`/
`CLIP OFF` set the flag; the concrete streams show labels and limits
being recorded while clip is off and inside an open block. -/
theorem C10_metadata_any_state :
    (∀ (st st' : ParseState) (l a1 : String) (rest : List String),
       tokens l = "XTEXT" :: a1 :: rest → step st l = .ok st' →
       st'.xlab = " ".intercalate (a1 :: rest)) ∧
    (∀ (st st' : ParseState) (l a1 : String) (rest : List String),
       tokens l = "YTEXT" :: a1 :: rest → step st l = .ok st' →
       st'.ylab = " ".intercalate (a1 :: rest)) ∧
    (∀ (st st' : ParseState) (l : String) (rest : List String),
       tokens l = "CLIP" :: "ON" :: rest → step st l = .ok st' →
       st'.clip = true) ∧
    (∀ (st st' : ParseState) (l : String) (rest : List String),
       tokens l = "CLIP" :: "OFF" :: rest → step st l = .ok st' →
       st'.clip = false) ∧
    load_exp_datafile_blocks ["CLIP OFF", "XTEXT A B", "YTEXT C", "XSCALE 1 2", "YSCALE 3 4"] =
      .ok ⟨[], [], "A B", "C", [1, 2], [3, 4]⟩ ∧
    load_exp_datafile_blocks ["BLOCK", "XTEXT In Block", "XSCALE 5 6", "BLOCKEND"] =
      .ok ⟨[[]], [[]], "In Block", "", [5, 6], []⟩ := by
  refine ⟨?_, ?_, ?_, ?_, by decide, by decide⟩
  · intro st st' l a1 rest htok h
    obtain ⟨st1, st2, h1, h2, h3⟩ := step_ok_elim h
    rw [htok, sec1_other st _ (by decide) (by decide)] at h1
    cases h1
    rw [htok, sec2_cons] at h2
    have hdb := dataBranch_ok_inv h2
    rw [(sec3_preserves h3).2.2.2.2.2.2.1, hdb.2.2.2.2.1,
      applyMeta_xlab_xtext]
  · intro st st' l a1 rest htok h
    obtain ⟨st1, st2, h1, h2, h3⟩ := step_ok_elim h
    rw [htok, sec1_other st _ (by decide) (by decide)] at h1
    cases h1
    rw [htok, sec2_cons] at h2
    have hdb := dataBranch_ok_inv h2
    rw [(sec3_preserves h3).2.2.2.2.2.2.2, hdb.2.2.2.2.2.1,
      applyMeta_ylab_ytext]
  · intro st st' l rest htok h
    obtain ⟨st1, st2, h1, h2, h3⟩ := step_ok_elim h
    rw [htok, sec1_other st _ (by decide) (by decide)] at h1
    cases h1
    rw [htok, sec2_cons] at h2
    have hdb := dataBranch_ok_inv h2
    rw [(sec3_preserves h3).2.2.2.1, hdb.2.1, applyMeta_clip_on]
  · intro st st' l rest htok h
    obtain ⟨st1, st2, h1, h2, h3⟩ := step_ok_elim h
    rw [htok, sec1_other st _ (by decide) (by decide)] at h1
    cases h1
    rw [htok, sec2_cons] at h2
    have hdb := dataBranch_ok_inv h2
    rw [(sec3_preserves h3).2.2.2.1, hdb.2.1, applyMeta_clip_off]

/-- **C10, witness.** An `XTEXT` line sets the label from the initial
state. -/
theorem C10_witness :
    ({ initState with xlab := "A B" } : ParseState).xlab =
      " ".intercalate ["A", "B"] :=
  C10_metadata_any_state.1 initState { initState with xlab := "A B" }
    "XTEXT A B" "A" ["B"] (by decide) (by decide)
